import Mathlib

/-!
Shallow embedding of the usage tracking and aggregation engine of the
ClaudeCodeDashboard backend (`backend/services/usage_service.py` and
`backend/models/usage.py`).

Modelling conventions:
* Python `float` money amounts are modelled as exact rationals `ℚ`;
  `round(x, 6)` is modelled as round-half-to-even at 6 decimal places.
* Python `datetime` timestamps used only for ordering and day arithmetic
  are modelled as `Int` (seconds); `timedelta(days=30)` is `30 * 86400`.
  The calendar-aware billing-period resolver uses an explicit
  year/month/day/hour/minute/second record.
* The append-only JSONL log is modelled as a `List (Option UsageEntry)`:
  each element is the decode result of one non-blank line in file order,
  `none` standing for a line on which `json.loads`/validation raises.
* Python truthiness on optional strings (`if query.instance_id:`) treats
  both `None` and `""` as falsy; this is modelled explicitly.
-/

/-- `ModelType` enum from `backend/models/usage.py`. -/
inductive ModelType where
  | opus
  | sonnet
  | sonnet35
  | haiku
  | unknown
deriving DecidableEq, Repr

/-- The `.value` string of each `ModelType` enum member. -/
def ModelType.value : ModelType → String
  | .opus => "claude-3-opus"
  | .sonnet => "claude-3-sonnet"
  | .sonnet35 => "claude-3.5-sonnet"
  | .haiku => "claude-3-haiku"
  | .unknown => "unknown"

/-- Per-1000-token prices for one model (entries of `MODEL_PRICING`). -/
structure Pricing where
  input_price_per_1k : ℚ
  output_price_per_1k : ℚ
  cache_creation_price_per_1k : ℚ
  cache_read_price_per_1k : ℚ
deriving DecidableEq, Repr

/-- `MODEL_PRICING` table from `backend/models/usage.py` (lines 195-220).
`ModelType.UNKNOWN` has no entry in the Python dict, hence `none`. -/
def MODEL_PRICING : ModelType → Option Pricing
  | .opus => some ⟨15/1000, 75/1000, 225/10000, 15/10000⟩
  | .sonnet35 => some ⟨3/1000, 15/1000, 45/10000, 3/10000⟩
  | .sonnet => some ⟨3/1000, 15/1000, 45/10000, 3/10000⟩
  | .haiku => some ⟨25/100000, 125/100000, 375/1000000, 25/1000000⟩
  | .unknown => none

/-- Round-half-to-even to the nearest integer (the rounding Python's
`round` performs on an exactly represented value). -/
def rhe (q : ℚ) : ℤ :=
  if q - q.floor < 1/2 then q.floor
  else if 1/2 < q - q.floor then q.floor + 1
  else if q.floor % 2 = 0 then q.floor else q.floor + 1

/-- Python `round(x, 6)`: round to 6 decimal places, half to even. -/
def round6 (q : ℚ) : ℚ := (rhe (q * 1000000) : ℚ) / 1000000

/-- Result of `UsageTracker.calculate_cost`: the dict of the four
component costs and the total. -/
structure Costs where
  input_cost : ℚ
  output_cost : ℚ
  cache_creation_cost : ℚ
  cache_read_cost : ℚ
  total_cost : ℚ
deriving DecidableEq, Repr

/-- `UsageTracker.calculate_cost` (`usage_service.py` lines 85-112).
The pricing lookup `self.config.get("pricing", MODEL_PRICING).get(model)`
is modelled by `MODEL_PRICING` (the default config stores exactly
`MODEL_PRICING`); a missing model yields all-zero costs with a warning. -/
def calculate_cost (model : ModelType) (input_tokens output_tokens
    cache_creation_tokens cache_read_tokens : ℕ) : Costs :=
  match MODEL_PRICING model with
  | none => ⟨0, 0, 0, 0, 0⟩
  | some pricing =>
    let input_cost := ((input_tokens : ℚ) / 1000) * pricing.input_price_per_1k
    let output_cost := ((output_tokens : ℚ) / 1000) * pricing.output_price_per_1k
    let cache_creation_cost :=
      ((cache_creation_tokens : ℚ) / 1000) * pricing.cache_creation_price_per_1k
    let cache_read_cost :=
      ((cache_read_tokens : ℚ) / 1000) * pricing.cache_read_price_per_1k
    let total_cost := input_cost + output_cost + cache_creation_cost + cache_read_cost
    ⟨round6 input_cost, round6 output_cost, round6 cache_creation_cost,
      round6 cache_read_cost, round6 total_cost⟩

/-- `UsageEntry` model (`backend/models/usage.py` lines 28-68), restricted
to the fields the usage engine reads. -/
structure UsageEntry where
  id : String
  instance_id : String
  session_id : Option String
  message_id : Option String
  timestamp : Int
  model : ModelType
  input_tokens : ℕ
  output_tokens : ℕ
  cache_creation_tokens : ℕ
  cache_read_tokens : ℕ
  input_cost : ℚ
  output_cost : ℚ
  cache_creation_cost : ℚ
  cache_read_cost : ℚ
  total_cost : ℚ
deriving DecidableEq, Repr

/-- The entry built by `UsageTracker.track_usage` (lines 114-137): token
counts plus the cost breakdown from `calculate_cost`. -/
def track_usage (id instance_id : String) (session_id message_id : Option String)
    (timestamp : Int) (model : ModelType)
    (input_tokens output_tokens cache_creation_tokens cache_read_tokens : ℕ) :
    UsageEntry :=
  let costs := calculate_cost model input_tokens output_tokens
    cache_creation_tokens cache_read_tokens
  { id := id, instance_id := instance_id, session_id := session_id,
    message_id := message_id, timestamp := timestamp, model := model,
    input_tokens := input_tokens, output_tokens := output_tokens,
    cache_creation_tokens := cache_creation_tokens,
    cache_read_tokens := cache_read_tokens,
    input_cost := costs.input_cost, output_cost := costs.output_cost,
    cache_creation_cost := costs.cache_creation_cost,
    cache_read_cost := costs.cache_read_cost, total_cost := costs.total_cost }

/-- `UsageQuery` model (`backend/models/usage.py` lines 113-133), restricted
to the fields `get_usage_entries`/`get_usage_aggregation` read. -/
structure UsageQuery where
  start_date : Option Int
  end_date : Option Int
  instance_id : Option String
  session_id : Option String
  model : Option ModelType
  offset : ℕ
  limit : ℕ
deriving DecidableEq, Repr

/-- A `UsageQuery()` with every pydantic default (`offset=0`, `limit=100`). -/
def defaultQuery : UsageQuery := ⟨none, none, none, none, none, 0, 100⟩

/-- Python truthiness of an optional string: `None` and `""` are falsy. -/
def strTruthy : Option String → Bool
  | none => false
  | some s => !(s == "")

/-- `UsageTracker._matches_query` (lines 178-191): the conjunction of the
five optional filters, each skipped when its query field is falsy. -/
def matchesQuery (e : UsageEntry) (q : UsageQuery) : Bool :=
  (match q.start_date with
   | none => true
   | some sd => !(decide (e.timestamp < sd))) &&
  (match q.end_date with
   | none => true
   | some ed => !(decide (ed < e.timestamp))) &&
  (if strTruthy q.instance_id then decide (some e.instance_id = q.instance_id)
   else true) &&
  (if strTruthy q.session_id then decide (e.session_id = q.session_id)
   else true) &&
  (match q.model with
   | none => true
   | some m => decide (e.model = m))

/-- One step of a stable descending insertion sort on timestamps. -/
def insertDesc (e : UsageEntry) : List UsageEntry → List UsageEntry
  | [] => [e]
  | y :: ys => if y.timestamp ≤ e.timestamp then e :: y :: ys
               else y :: insertDesc e ys

/-- `entries.sort(key=lambda x: x.timestamp, reverse=True)` (line 167):
Python's stable sort in descending timestamp order, modelled as a stable
insertion sort (equal timestamps keep their file order). -/
def sortDesc : List UsageEntry → List UsageEntry
  | [] => []
  | e :: es => insertDesc e (sortDesc es)

/-- `UsageTracker.get_usage_entries` (lines 151-176).  The whole loop body
runs inside a single `try`; a line whose decode raises (`none` in the
modelled log) propagates to the outer `except`, which logs an error and
returns the empty list.  Otherwise: filter, stable sort newest-first,
then slice `[offset : offset+limit]`. -/
def get_usage_entries (lines : List (Option UsageEntry)) (q : UsageQuery) :
    List UsageEntry :=
  if lines.all (fun l => l.isSome) then
    ((sortDesc (((lines.filterMap id)).filter
      (fun e => matchesQuery e q))).drop q.offset).take q.limit
  else []

/-- One value of the per-model breakdown dict
(`{"tokens": 0, "cost": 0.0, "requests": 0, "input_tokens": 0, "output_tokens": 0}`). -/
structure ModelStats where
  tokens : ℕ
  cost : ℚ
  requests : ℕ
  input_tokens : ℕ
  output_tokens : ℕ
deriving DecidableEq, Repr

/-- The defaultdict factory value for a fresh model key (lines 223-226). -/
def emptyModelStats : ModelStats := ⟨0, 0, 0, 0, 0⟩

/-- The loop body of the model breakdown (lines 228-234): add one entry
into its model's accumulator record. -/
def addEntryStats (s : ModelStats) (e : UsageEntry) : ModelStats :=
  { tokens := s.tokens + (e.input_tokens + e.output_tokens),
    cost := s.cost + e.total_cost,
    requests := s.requests + 1,
    input_tokens := s.input_tokens + e.input_tokens,
    output_tokens := s.output_tokens + e.output_tokens }

/-- Update the association list for key `k` with entry `e`, inserting the
defaultdict factory value on first access (key order = first occurrence). -/
def updateModelUsage (acc : List (String × ModelStats)) (k : String)
    (e : UsageEntry) : List (String × ModelStats) :=
  match acc with
  | [] => [(k, addEntryStats emptyModelStats e)]
  | (k', s) :: rest =>
    if k' = k then (k', addEntryStats s e) :: rest
    else (k', s) :: updateModelUsage rest k e

/-- The per-model breakdown `model_usage` built by the loop at lines
222-234: a dict keyed by `entry.model.value`, in first-occurrence order. -/
def buildModelUsage (entries : List UsageEntry) : List (String × ModelStats) :=
  entries.foldl (fun acc e => updateModelUsage acc e.model.value e) []

/-- `UsageAggregation` model (`backend/models/usage.py` lines 71-110). -/
structure UsageAggregation where
  period_start : Int
  period_end : Int
  instance_id : Option String
  total_input_tokens : ℕ
  total_output_tokens : ℕ
  total_cache_creation_tokens : ℕ
  total_cache_read_tokens : ℕ
  total_tokens : ℕ
  total_input_cost : ℚ
  total_output_cost : ℚ
  total_cache_creation_cost : ℚ
  total_cache_read_cost : ℚ
  total_cost : ℚ
  total_requests : ℕ
  total_sessions : ℕ
  unique_instances : ℕ
  claude_model_usage : List (String × ModelStats)
  avg_tokens_per_request : ℚ
  avg_cost_per_request : ℚ
  cache_hit_rate : ℚ
deriving DecidableEq, Repr

/-- `min(e.timestamp for e in entries)` (meaningful on nonempty lists). -/
def minTS : List UsageEntry → Int
  | [] => 0
  | e :: rest => rest.foldl (fun a b => min a b.timestamp) e.timestamp

/-- `max(e.timestamp for e in entries)` (meaningful on nonempty lists). -/
def maxTS : List UsageEntry → Int
  | [] => 0
  | e :: rest => rest.foldl (fun a b => max a b.timestamp) e.timestamp

/-- The query `get_usage_aggregation` passes to `get_usage_entries`
(lines 195-202): same five filters, default `offset=0`, `limit=10000`. -/
def aggQuery (q : UsageQuery) : UsageQuery :=
  { start_date := q.start_date, end_date := q.end_date,
    instance_id := q.instance_id, session_id := q.session_id,
    model := q.model, offset := 0, limit := 10000 }

/-- `UsageTracker.get_usage_aggregation` (lines 193-273).  `now` models
`datetime.now()` (used only by the empty-result defaults).  The empty
branch returns a `UsageAggregation` with every numeric field at its
pydantic default (0) and period bounds from the query or the defaults
`now - 30 days` / `now`. -/
def get_usage_aggregation (now : Int) (lines : List (Option UsageEntry))
    (query : UsageQuery) : UsageAggregation :=
  let entries := get_usage_entries lines (aggQuery query)
  if entries = [] then
    { period_start := query.start_date.getD (now - 30 * 86400),
      period_end := query.end_date.getD now,
      instance_id := query.instance_id,
      total_input_tokens := 0, total_output_tokens := 0,
      total_cache_creation_tokens := 0, total_cache_read_tokens := 0,
      total_tokens := 0,
      total_input_cost := 0, total_output_cost := 0,
      total_cache_creation_cost := 0, total_cache_read_cost := 0,
      total_cost := 0,
      total_requests := 0, total_sessions := 0, unique_instances := 0,
      claude_model_usage := [],
      avg_tokens_per_request := 0, avg_cost_per_request := 0,
      cache_hit_rate := 0 }
  else
    let total_input_tokens := (entries.map (fun e => e.input_tokens)).sum
    let total_output_tokens := (entries.map (fun e => e.output_tokens)).sum
    let total_cache_creation_tokens :=
      (entries.map (fun e => e.cache_creation_tokens)).sum
    let total_cache_read_tokens :=
      (entries.map (fun e => e.cache_read_tokens)).sum
    let total_input_cost := (entries.map (fun e => e.input_cost)).sum
    let total_output_cost := (entries.map (fun e => e.output_cost)).sum
    let total_cache_creation_cost :=
      (entries.map (fun e => e.cache_creation_cost)).sum
    let total_cache_read_cost := (entries.map (fun e => e.cache_read_cost)).sum
    let total_requests := entries.length
    let total_tokens := total_input_tokens + total_output_tokens
    let total_cost := total_input_cost + total_output_cost +
      total_cache_creation_cost + total_cache_read_cost
    let avg_tokens_per_request :=
      if total_requests > 0 then (total_tokens : ℚ) / (total_requests : ℚ) else 0
    let avg_cost_per_request :=
      if total_requests > 0 then total_cost / (total_requests : ℚ) else 0
    let cache_requests :=
      (entries.filter (fun e => decide (0 < e.cache_read_tokens))).length
    let cache_hit_rate :=
      if total_requests > 0 then
        ((cache_requests : ℚ) / (total_requests : ℚ)) * 100
      else 0
    let unique_sessions :=
      ((entries.filterMap (fun e => e.session_id)).filter
        (fun s => !(s == ""))).dedup.length
    let unique_instances := (entries.map (fun e => e.instance_id)).dedup.length
    { period_start := query.start_date.getD (minTS entries),
      period_end := query.end_date.getD (maxTS entries),
      instance_id := query.instance_id,
      total_input_tokens := total_input_tokens,
      total_output_tokens := total_output_tokens,
      total_cache_creation_tokens := total_cache_creation_tokens,
      total_cache_read_tokens := total_cache_read_tokens,
      total_tokens := total_tokens,
      total_input_cost := total_input_cost,
      total_output_cost := total_output_cost,
      total_cache_creation_cost := total_cache_creation_cost,
      total_cache_read_cost := total_cache_read_cost,
      total_cost := total_cost,
      total_requests := total_requests,
      total_sessions := unique_sessions,
      unique_instances := unique_instances,
      claude_model_usage := buildModelUsage entries,
      avg_tokens_per_request := avg_tokens_per_request,
      avg_cost_per_request := avg_cost_per_request,
      cache_hit_rate := cache_hit_rate }

/-- The trend-classification block of `UsageTracker.get_current_usage_stats`
(lines 331-340), as a function of the current- and previous-period total
costs. -/
def trend_direction (current_cost prev_cost : ℚ) : String :=
  if prev_cost > 0 then
    let cost_change := (current_cost - prev_cost) / prev_cost
    if cost_change > 1/10 then "increasing"
    else if cost_change < -(1/10) then "decreasing"
    else "stable"
  else "stable"

/-- A calendar timestamp, modelling the `datetime` fields the billing
period resolver manipulates (microseconds are zeroed by the code). -/
structure CalDateTime where
  year : ℕ
  month : ℕ
  day : ℕ
  hour : ℕ
  minute : ℕ
  second : ℕ
deriving DecidableEq, Repr

/-- Gregorian leap year rule. -/
def isLeapYear (y : ℕ) : Bool :=
  y % 4 = 0 && (y % 100 ≠ 0 || y % 400 = 0)

/-- Days in a Gregorian month. -/
def daysInMonth (y m : ℕ) : ℕ :=
  if m = 2 then (if isLeapYear y then 29 else 28)
  else if m = 4 || m = 6 || m = 9 || m = 11 then 30
  else 31

/-- `d - timedelta(seconds=1)` on a valid calendar timestamp, with
borrow across minute/hour/day/month/year boundaries. -/
def predSecond (d : CalDateTime) : CalDateTime :=
  if d.second > 0 then { d with second := d.second - 1 }
  else if d.minute > 0 then { d with minute := d.minute - 1, second := 59 }
  else if d.hour > 0 then { d with hour := d.hour - 1, minute := 59, second := 59 }
  else if d.day > 1 then
    { d with day := d.day - 1, hour := 23, minute := 59, second := 59 }
  else if d.month > 1 then
    let dm := daysInMonth d.year (d.month - 1)
    { d with
      month := d.month - 1
      day := dm
      hour := 23
      minute := 59
      second := 59 }
  else
    { year := d.year - 1, month := 12, day := 31,
      hour := 23, minute := 59, second := 59 }

/-- The monthly branch of the billing-period resolver in
`UsageTracker.get_current_usage_stats` (lines 281-286):
`period_start = now.replace(day=1, hour=0, minute=0, second=0, microsecond=0)`;
`period_end` = first instant of the next month (with December→January
rollover) minus one second. -/
def monthlyPeriod (now : CalDateTime) : CalDateTime × CalDateTime :=
  let period_start : CalDateTime :=
    { now with day := 1, hour := 0, minute := 0, second := 0 }
  let period_end :=
    if now.month = 12 then
      predSecond { period_start with year := now.year + 1, month := 1 }
    else
      predSecond { period_start with month := now.month + 1 }
  (period_start, period_end)

/-- The JSON payload written by `UsageTracker.export_usage_data`
(lines 361-389) with `include_raw_data` and `include_aggregations` both
true (their defaults): entry count and raw entries from
`get_usage_entries` with the request query (its `offset`/`limit`
applied), aggregation from `get_usage_aggregation` on the same query. -/
structure ExportDataJSON where
  total_entries : ℕ
  usage_entries : List UsageEntry
  aggregation : UsageAggregation
deriving DecidableEq, Repr

/-- `UsageTracker.export_usage_data`, JSON branch (lines 361-389). -/
def export_usage_data (now : Int) (lines : List (Option UsageEntry))
    (q : UsageQuery) : ExportDataJSON :=
  let entries := get_usage_entries lines q
  { total_entries := entries.length,
    usage_entries := entries,
    aggregation := get_usage_aggregation now lines q }

/-- Sample well-formed entry used in concrete witnesses/counterexamples. -/
def entryA : UsageEntry :=
  ⟨"a", "inst-1", some "s1", none, 100, .haiku, 1000, 500, 0, 0,
    1, 1, 0, 0, 2⟩

/-- A second sample entry with a later timestamp. -/
def entryB : UsageEntry :=
  ⟨"b", "inst-2", none, none, 200, .opus, 10, 20, 0, 0, 0, 0, 0, 0, 0⟩

/-- A minimal matching entry used for the export counterexample. -/
def entryX : UsageEntry :=
  ⟨"x", "inst-1", none, none, 0, .haiku, 1, 1, 0, 0, 0, 0, 0, 0, 0⟩

/-- A query with both date bounds set. -/
def qBounds : UsageQuery := ⟨some 0, some 1000, none, none, none, 0, 100⟩

/-- A query with `limit` set to the aggregation's internal cap of 10000. -/
def q10k : UsageQuery := ⟨none, none, none, none, none, 0, 10000⟩


/-! ## Rounding lemmas -/

theorem intFloor_eq_ratFloor (q : ℚ) : ⌊q⌋ = q.floor := by
  rw [Rat.floor_def, Rat.floor_def']

theorem abs_rhe_sub_le (q : ℚ) : |(rhe q : ℚ) - q| ≤ 1/2 := by
  unfold rhe
  rw [← intFloor_eq_ratFloor]
  have h0 : (0 : ℚ) ≤ q - ⌊q⌋ := by
    have := Int.floor_le q
    linarith
  have h1 : q - ⌊q⌋ < 1 := by
    have := Int.lt_floor_add_one q
    linarith
  split_ifs with hlt hgt hev
  · rw [abs_sub_comm, abs_of_nonneg h0]
    linarith
  · push_cast
    rw [abs_of_nonneg (by linarith)]
    linarith
  · have heq : q - ⌊q⌋ = 1/2 := le_antisymm (not_lt.mp hgt) (not_lt.mp hlt)
    rw [abs_sub_comm, abs_of_nonneg h0]
    linarith
  · have heq : q - ⌊q⌋ = 1/2 := le_antisymm (not_lt.mp hgt) (not_lt.mp hlt)
    push_cast
    rw [abs_of_nonneg (by linarith)]
    linarith

theorem round6_eq_of_floor (x : ℚ) (f : ℤ) (hlo : (f : ℚ) ≤ x * 1000000)
    (hhi : x * 1000000 < f + 1) :
    round6 x = (if x * 1000000 - f < 1/2 then (f : ℚ)
      else if 1/2 < x * 1000000 - f then (f : ℚ) + 1
      else if f % 2 = 0 then (f : ℚ) else (f : ℚ) + 1) / 1000000 := by
  have hf : ⌊x * 1000000⌋ = f := Int.floor_eq_iff.mpr ⟨hlo, hhi⟩
  unfold round6 rhe
  rw [← intFloor_eq_ratFloor, hf]
  split_ifs <;> push_cast <;> ring

theorem round6_zero : round6 0 = 0 := by
  have h := round6_eq_of_floor 0 0 (by norm_num) (by norm_num)
  norm_num at h
  exact h

/-- The rounded total of four summands differs from the sum of the four
rounded summands by at most 2e-6: the difference is an integer multiple
of 1e-6 bounded in absolute value by 2.5e-6. -/
theorem round6_sum_tolerance (x1 x2 x3 x4 : ℚ) :
    |round6 (x1 + x2 + x3 + x4) -
      (round6 x1 + round6 x2 + round6 x3 + round6 x4)| ≤ 2/1000000 := by
  unfold round6
  set S := (x1 + x2 + x3 + x4) * 1000000 with hS
  set n : ℤ := rhe S - (rhe (x1 * 1000000) + rhe (x2 * 1000000) +
    rhe (x3 * 1000000) + rhe (x4 * 1000000)) with hn
  have hdiff : (rhe S : ℚ) / 1000000 -
      ((rhe (x1 * 1000000) : ℚ) / 1000000 + (rhe (x2 * 1000000) : ℚ) / 1000000 +
       (rhe (x3 * 1000000) : ℚ) / 1000000 + (rhe (x4 * 1000000) : ℚ) / 1000000) =
      (n : ℚ) / 1000000 := by
    rw [hn]
    push_cast
    ring
  rw [hdiff]
  have b0 := abs_le.mp (abs_rhe_sub_le S)
  have b1 := abs_le.mp (abs_rhe_sub_le (x1 * 1000000))
  have b2 := abs_le.mp (abs_rhe_sub_le (x2 * 1000000))
  have b3 := abs_le.mp (abs_rhe_sub_le (x3 * 1000000))
  have b4 := abs_le.mp (abs_rhe_sub_le (x4 * 1000000))
  have hsum : (n : ℚ) = ((rhe S : ℚ) - S) -
      (((rhe (x1 * 1000000) : ℚ) - x1 * 1000000) +
       ((rhe (x2 * 1000000) : ℚ) - x2 * 1000000) +
       ((rhe (x3 * 1000000) : ℚ) - x3 * 1000000) +
       ((rhe (x4 * 1000000) : ℚ) - x4 * 1000000)) := by
    rw [hn, hS]
    push_cast
    ring
  have hb : |(n : ℚ)| ≤ 5/2 := by
    rw [abs_le, hsum]
    constructor <;> linarith
  have hint : |n| ≤ 2 := by
    by_contra hc
    push_neg at hc
    have h3 : (3 : ℚ) ≤ |(n : ℚ)| := by
      rw [← Int.cast_abs]
      exact_mod_cast hc
    linarith
  have hq2 : |(n : ℚ)| ≤ 2 := by
    rw [← Int.cast_abs]
    exact_mod_cast hint
  rw [abs_div, abs_of_pos (by norm_num : (0:ℚ) < 1000000)]
  linarith

/-! ## C3 -/

/-- C3 counterexample: tracking usage with model `claude-3-haiku`,
`input_tokens=1000`, `output_tokens=500` (no cache tokens) does NOT give
`total_cost = 0.001125` as the spec's Scenario A computes. -/
theorem c3_haiku_cost_counterexample :
    (track_usage "x" "inst-1" none none 0 .haiku 1000 500 0 0).total_cost ≠
      1125/1000000 := by
  have h := round6_eq_of_floor (7/8000) 875 (by norm_num) (by norm_num)
  norm_num at h
  simp only [track_usage, calculate_cost, MODEL_PRICING]
  norm_num [h]

/-- C3 amended: tracking usage with model `claude-3-haiku`,
`input_tokens=1000`, `output_tokens=500` produces an entry with
`total_cost = (1000/1000)*0.00025 + (500/1000)*0.00125 = 0.000875`
(the spec's scenario miscomputes the first term as 0.0005). -/
theorem c3_haiku_cost_amended :
    (track_usage "x" "inst-1" none none 0 .haiku 1000 500 0 0).total_cost =
      875/1000000 := by
  have h := round6_eq_of_floor (7/8000) 875 (by norm_num) (by norm_num)
  norm_num at h
  simp only [track_usage, calculate_cost, MODEL_PRICING]
  norm_num [h]

/-! ## C4 -/

/-- C4 counterexample: for haiku with token counts (5, 26, 9, 15) the
rounded total differs from the sum of the four rounded components by
exactly 2e-6, exceeding the claimed tolerance of 1e-6. -/
theorem c4_cost_tolerance_counterexample :
    ¬ (|(calculate_cost .haiku 5 26 9 15).total_cost -
        ((calculate_cost .haiku 5 26 9 15).input_cost +
         (calculate_cost .haiku 5 26 9 15).output_cost +
         (calculate_cost .haiku 5 26 9 15).cache_creation_cost +
         (calculate_cost .haiku 5 26 9 15).cache_read_cost)| ≤ 1/1000000) := by
  have h1 := round6_eq_of_floor (1/800000) 1 (by norm_num) (by norm_num)
  have h2 := round6_eq_of_floor (13/400000) 32 (by norm_num) (by norm_num)
  have h3 := round6_eq_of_floor (27/8000000) 3 (by norm_num) (by norm_num)
  have h4 := round6_eq_of_floor (3/8000000) 0 (by norm_num) (by norm_num)
  have h5 := round6_eq_of_floor (3/80000) 37 (by norm_num) (by norm_num)
  norm_num at h1 h2 h3 h4 h5
  simp only [calculate_cost, MODEL_PRICING]
  norm_num [h1, h2, h3, h4, h5]
  rw [abs_of_nonneg (by norm_num)]
  norm_num

/-- C4 amended: every `calculate_cost` result has all five cost fields
rounded to 6 decimal places (integer multiples of 1e-6); `total_cost`
equals the sum of the four component costs within a tolerance of 2e-6
(the 1e-6 claimed by the spec is exceeded, see the counterexample, and
2e-6 is attained there); with all four token counts zero all five cost
fields are exactly 0; and for a model absent from the pricing table all
five cost fields are 0 (a warning, not an error). -/
theorem c4_cost_rounding_amended (model : ModelType) (it ot cct crt : ℕ) :
    ((∃ n : ℤ, (calculate_cost model it ot cct crt).input_cost = n/1000000) ∧
     (∃ n : ℤ, (calculate_cost model it ot cct crt).output_cost = n/1000000) ∧
     (∃ n : ℤ, (calculate_cost model it ot cct crt).cache_creation_cost = n/1000000) ∧
     (∃ n : ℤ, (calculate_cost model it ot cct crt).cache_read_cost = n/1000000) ∧
     (∃ n : ℤ, (calculate_cost model it ot cct crt).total_cost = n/1000000)) ∧
    |(calculate_cost model it ot cct crt).total_cost -
      ((calculate_cost model it ot cct crt).input_cost +
       (calculate_cost model it ot cct crt).output_cost +
       (calculate_cost model it ot cct crt).cache_creation_cost +
       (calculate_cost model it ot cct crt).cache_read_cost)| ≤ 2/1000000 ∧
    (it = 0 ∧ ot = 0 ∧ cct = 0 ∧ crt = 0 →
      calculate_cost model it ot cct crt = ⟨0, 0, 0, 0, 0⟩) ∧
    (MODEL_PRICING model = none →
      calculate_cost model it ot cct crt = ⟨0, 0, 0, 0, 0⟩) := by
  cases hp : MODEL_PRICING model with
  | none =>
    have hc : calculate_cost model it ot cct crt = ⟨0, 0, 0, 0, 0⟩ := by
      simp only [calculate_cost, hp]
    rw [hc]
    refine ⟨⟨⟨0, by norm_num⟩, ⟨0, by norm_num⟩, ⟨0, by norm_num⟩,
      ⟨0, by norm_num⟩, ⟨0, by norm_num⟩⟩, by norm_num, fun _ => rfl, fun _ => rfl⟩
  | some pricing =>
    have hc : calculate_cost model it ot cct crt =
        ⟨round6 (((it : ℚ)/1000) * pricing.input_price_per_1k),
         round6 (((ot : ℚ)/1000) * pricing.output_price_per_1k),
         round6 (((cct : ℚ)/1000) * pricing.cache_creation_price_per_1k),
         round6 (((crt : ℚ)/1000) * pricing.cache_read_price_per_1k),
         round6 ((((it : ℚ)/1000) * pricing.input_price_per_1k) +
           (((ot : ℚ)/1000) * pricing.output_price_per_1k) +
           (((cct : ℚ)/1000) * pricing.cache_creation_price_per_1k) +
           (((crt : ℚ)/1000) * pricing.cache_read_price_per_1k))⟩ := by
      simp only [calculate_cost, hp]
    rw [hc]
    refine ⟨⟨⟨_, rfl⟩, ⟨_, rfl⟩, ⟨_, rfl⟩, ⟨_, rfl⟩, ⟨_, rfl⟩⟩,
      round6_sum_tolerance _ _ _ _, ?_, ?_⟩
    · rintro ⟨rfl, rfl, rfl, rfl⟩
      simp only [Nat.cast_zero, zero_div, zero_mul, add_zero, zero_add,
        round6_zero]
    · intro hnone
      exact Option.noConfusion hnone

/-- C4 witness: the amended theorem applied at the unknown model, whose
pricing-table lookup is empty, giving the all-zero cost record. -/
theorem c4_cost_rounding_witness :
    MODEL_PRICING .unknown = none ∧
      calculate_cost .unknown 1 2 3 4 = ⟨0, 0, 0, 0, 0⟩ :=
  ⟨rfl, (c4_cost_rounding_amended .unknown 1 2 3 4).2.2.2 rfl⟩

/-! ## C8 -/

/-- C8: the trend classification is "increasing" exactly when the
previous cost is positive and the relative change exceeds +10%,
"decreasing" exactly when it is positive and the change is below −10%,
and "stable" otherwise — in particular always "stable" when the
previous-period cost is zero, even with a positive current cost. -/
theorem c8_trend_classification (cur prev : ℚ) :
    (trend_direction cur prev = "increasing" ↔
      0 < prev ∧ 1/10 < (cur - prev)/prev) ∧
    (trend_direction cur prev = "decreasing" ↔
      0 < prev ∧ (cur - prev)/prev < -(1/10)) ∧
    (trend_direction cur prev = "stable" ↔
      ¬(0 < prev ∧ 1/10 < (cur - prev)/prev) ∧
      ¬(0 < prev ∧ (cur - prev)/prev < -(1/10))) ∧
    (prev = 0 → trend_direction cur prev = "stable") := by
  have hval : trend_direction cur prev =
      (if prev > 0 then
        (if (cur - prev)/prev > 1/10 then "increasing"
         else if (cur - prev)/prev < -(1/10) then "decreasing" else "stable")
       else "stable") := rfl
  rw [hval]
  split_ifs with h1 h2 h3
  · refine ⟨iff_of_true rfl ⟨h1, h2⟩, iff_of_false (by decide) ?_,
      iff_of_false (by decide) ?_,
      fun h0 => absurd h1 (by rw [h0]; exact lt_irrefl 0)⟩
    · rintro ⟨-, hd⟩
      linarith
    · rintro ⟨ha, -⟩
      exact ha ⟨h1, h2⟩
  · refine ⟨iff_of_false (by decide) ?_, iff_of_true rfl ⟨h1, h3⟩,
      iff_of_false (by decide) ?_,
      fun h0 => absurd h1 (by rw [h0]; exact lt_irrefl 0)⟩
    · rintro ⟨-, hi⟩
      exact h2 hi
    · rintro ⟨-, hb⟩
      exact hb ⟨h1, h3⟩
  · refine ⟨iff_of_false (by decide) ?_, iff_of_false (by decide) ?_,
      iff_of_true rfl ⟨?_, ?_⟩, fun _ => rfl⟩
    · rintro ⟨-, hi⟩
      exact h2 hi
    · rintro ⟨-, hd⟩
      exact h3 hd
    · rintro ⟨-, hi⟩
      exact h2 hi
    · rintro ⟨-, hd⟩
      exact h3 hd
  · refine ⟨iff_of_false (by decide) ?_, iff_of_false (by decide) ?_,
      iff_of_true rfl ⟨?_, ?_⟩, fun _ => rfl⟩
    · rintro ⟨hp, -⟩
      exact h1 hp
    · rintro ⟨hp, -⟩
      exact h1 hp
    · rintro ⟨hp, -⟩
      exact h1 hp
    · rintro ⟨hp, -⟩
      exact h1 hp

/-- C8 witness: the theorem applied at previous cost 0 and current cost
50, the spec's Scenario C: trend is "stable". -/
theorem c8_trend_classification_witness :
    trend_direction 50 0 = "stable" :=
  (c8_trend_classification 50 0).2.2.2 rfl

/-! ## C2 -/

/-- C2 counterexample: a log with one well-formed matching entry and one
malformed line: the scan returns the empty list (the whole read aborts),
not the well-formed entry — though the same log without the malformed
line returns it. -/
theorem c2_skip_malformed_counterexample :
    matchesQuery entryA defaultQuery = true ∧
    get_usage_entries [some entryA] defaultQuery = [entryA] ∧
    get_usage_entries [some entryA, none] defaultQuery = [] :=
  ⟨rfl, rfl, rfl⟩

/-- C2 amended: a malformed (undecodable) line is not skipped locally:
the per-line decode runs inside the single `try` of
`get_usage_entries`, so one corrupt line aborts the whole read, which
logs an error and returns the empty list, dropping every well-formed
matching entry. -/
theorem c2_malformed_line_aborts_scan (lines : List (Option UsageEntry))
    (q : UsageQuery) (h : none ∈ lines) : get_usage_entries lines q = [] := by
  unfold get_usage_entries
  rw [if_neg]
  intro hall
  rw [List.all_eq_true] at hall
  have hs := hall none h
  simp at hs

/-- C2 witness: the amended theorem applied to a concrete log holding a
single malformed line. -/
theorem c2_malformed_line_aborts_scan_witness :
    none ∈ ([some entryA, none] : List (Option UsageEntry)) ∧
      get_usage_entries [some entryA, none] defaultQuery = [] :=
  ⟨by simp, c2_malformed_line_aborts_scan [some entryA, none] defaultQuery (by simp)⟩

/-! ## C6 -/

/-- C6: aggregating an empty filtered entry set returns a
`UsageAggregation` with every numeric field equal to 0 (so no division
is attempted) and `period_start`/`period_end` taken from the query's
bounds when given, else defaulting to the last 30 days ending `now`. -/
theorem c6_empty_aggregation_zeroes (now : Int)
    (lines : List (Option UsageEntry)) (q : UsageQuery)
    (h : get_usage_entries lines (aggQuery q) = []) :
    (get_usage_aggregation now lines q).period_start =
        q.start_date.getD (now - 30 * 86400) ∧
    (get_usage_aggregation now lines q).period_end = q.end_date.getD now ∧
    (get_usage_aggregation now lines q).instance_id = q.instance_id ∧
    (get_usage_aggregation now lines q).total_input_tokens = 0 ∧
    (get_usage_aggregation now lines q).total_output_tokens = 0 ∧
    (get_usage_aggregation now lines q).total_cache_creation_tokens = 0 ∧
    (get_usage_aggregation now lines q).total_cache_read_tokens = 0 ∧
    (get_usage_aggregation now lines q).total_tokens = 0 ∧
    (get_usage_aggregation now lines q).total_input_cost = 0 ∧
    (get_usage_aggregation now lines q).total_output_cost = 0 ∧
    (get_usage_aggregation now lines q).total_cache_creation_cost = 0 ∧
    (get_usage_aggregation now lines q).total_cache_read_cost = 0 ∧
    (get_usage_aggregation now lines q).total_cost = 0 ∧
    (get_usage_aggregation now lines q).total_requests = 0 ∧
    (get_usage_aggregation now lines q).total_sessions = 0 ∧
    (get_usage_aggregation now lines q).unique_instances = 0 ∧
    (get_usage_aggregation now lines q).claude_model_usage = [] ∧
    (get_usage_aggregation now lines q).avg_tokens_per_request = 0 ∧
    (get_usage_aggregation now lines q).avg_cost_per_request = 0 ∧
    (get_usage_aggregation now lines q).cache_hit_rate = 0 := by
  simp [get_usage_aggregation, h]

/-- C6 witness: the theorem applied to the empty log with the default
query at `now = 0`. -/
theorem c6_empty_aggregation_zeroes_witness :
    get_usage_entries [] (aggQuery defaultQuery) = [] ∧
      (get_usage_aggregation 0 [] defaultQuery).total_tokens = 0 ∧
      (get_usage_aggregation 0 [] defaultQuery).period_end =
        defaultQuery.end_date.getD 0 :=
  ⟨rfl, (c6_empty_aggregation_zeroes 0 [] defaultQuery rfl).2.2.2.2.2.2.2.1,
    (c6_empty_aggregation_zeroes 0 [] defaultQuery rfl).2.1⟩

/-! ## C9 -/

/-- C9 counterexample: with no date bounds and no matching entries, the
aggregation's default period bounds come from `datetime.now()`, so two
calls on the same unchanged (empty) log evaluated at different instants
return different `UsageAggregation` values. -/
theorem c9_aggregation_clock_counterexample :
    get_usage_aggregation 0 [] defaultQuery ≠
      get_usage_aggregation 86400 [] defaultQuery := by
  intro h
  have hpe := congrArg UsageAggregation.period_end h
  simp [get_usage_aggregation, get_usage_entries, sortDesc, aggQuery,
    defaultQuery] at hpe

/-- C9 amended: two aggregation calls with identical queries over an
unchanged log yield identical results (including `period_start` and
`period_end`) regardless of the clock, PROVIDED the query supplies both
date bounds or at least one entry matches; in the remaining case (no
bounds, no matches) the defaults read the current time, so calls at
different instants differ (see the counterexample). -/
theorem c9_aggregation_idempotent_amended (now1 now2 : Int)
    (lines : List (Option UsageEntry)) (q : UsageQuery)
    (h : (q.start_date.isSome ∧ q.end_date.isSome) ∨
      get_usage_entries lines (aggQuery q) ≠ []) :
    get_usage_aggregation now1 lines q = get_usage_aggregation now2 lines q := by
  by_cases he : get_usage_entries lines (aggQuery q) = []
  · rcases h with ⟨hs, hend⟩ | hne
    · obtain ⟨sd, hsd⟩ := Option.isSome_iff_exists.mp hs
      obtain ⟨ed, hed⟩ := Option.isSome_iff_exists.mp hend
      simp only [get_usage_aggregation, he, if_pos, hsd, hed, Option.getD_some]
    · exact absurd he hne
  · simp only [get_usage_aggregation]
    simp [he]

/-- C9 witness: the amended theorem applied to the empty log with a
fully bounded query at two different clock values. -/
theorem c9_aggregation_idempotent_witness :
    (qBounds.start_date.isSome ∧ qBounds.end_date.isSome) ∧
      get_usage_aggregation 5 [] qBounds = get_usage_aggregation 99 [] qBounds :=
  ⟨⟨rfl, rfl⟩,
    c9_aggregation_idempotent_amended 5 99 [] qBounds (Or.inl ⟨rfl, rfl⟩)⟩

/-! ## C7 -/

/-- C7: with monthly granularity the billing-period resolver returns
`period_start` = first instant of now's calendar month and `period_end`
= one second before the first instant of the next calendar month
(December rolls over to January of the next year), which concretely is
the last day of now's month at 23:59:59; in particular for
now = 2024-02-15 it returns 2024-02-01T00:00:00 and 2024-02-29T23:59:59
(leap year). -/
theorem c7_monthly_period (now : CalDateTime) (hm1 : 1 ≤ now.month)
    (hm2 : now.month ≤ 12) :
    (monthlyPeriod now).1 = ⟨now.year, now.month, 1, 0, 0, 0⟩ ∧
    (monthlyPeriod now).2 =
      (if now.month = 12 then predSecond ⟨now.year + 1, 1, 1, 0, 0, 0⟩
       else predSecond ⟨now.year, now.month + 1, 1, 0, 0, 0⟩) ∧
    (monthlyPeriod now).2 =
      ⟨now.year, now.month, daysInMonth now.year now.month, 23, 59, 59⟩ ∧
    monthlyPeriod ⟨2024, 2, 15, 10, 30, 45⟩ =
      (⟨2024, 2, 1, 0, 0, 0⟩, ⟨2024, 2, 29, 23, 59, 59⟩) := by
  obtain ⟨y, m, d, hh, mi, s⟩ := now
  simp only at hm1 hm2
  refine ⟨rfl, rfl, ?_, by decide⟩
  by_cases hm : m = 12
  · subst hm
    simp [monthlyPeriod, predSecond, daysInMonth]
  · have hm' : m + 1 > 1 := by omega
    simp [monthlyPeriod, hm, predSecond, hm', Nat.add_sub_cancel]

/-- C7 witness: the theorem applied at now = 2024-02-15T10:30:45. -/
theorem c7_monthly_period_witness :
    (1 ≤ (2:ℕ) ∧ (2:ℕ) ≤ 12) ∧
      (monthlyPeriod ⟨2024, 2, 15, 10, 30, 45⟩).2 =
        ⟨2024, 2, daysInMonth 2024 2, 23, 59, 59⟩ :=
  ⟨⟨by decide, by decide⟩,
    (c7_monthly_period ⟨2024, 2, 15, 10, 30, 45⟩ (by decide) (by decide)).2.2.1⟩

/-! ## Sorting lemmas for the query engine -/

theorem length_insertDesc (e : UsageEntry) (l : List UsageEntry) :
    (insertDesc e l).length = l.length + 1 := by
  induction l with
  | nil => rfl
  | cons y ys ih =>
    simp only [insertDesc]
    split_ifs <;> simp [ih]

theorem length_sortDesc (l : List UsageEntry) :
    (sortDesc l).length = l.length := by
  induction l with
  | nil => rfl
  | cons e es ih => simp [sortDesc, length_insertDesc, ih]

theorem mem_insertDesc (a e : UsageEntry) (l : List UsageEntry) :
    a ∈ insertDesc e l ↔ a = e ∨ a ∈ l := by
  induction l with
  | nil => simp [insertDesc]
  | cons y ys ih =>
    simp only [insertDesc]
    split_ifs <;> simp [ih] <;> tauto

theorem mem_sortDesc (a : UsageEntry) (l : List UsageEntry) :
    a ∈ sortDesc l ↔ a ∈ l := by
  induction l with
  | nil => exact Iff.rfl
  | cons e es ih => simp [sortDesc, mem_insertDesc, ih]

theorem pairwise_insertDesc (e : UsageEntry) (l : List UsageEntry)
    (h : l.Pairwise (fun a b => b.timestamp ≤ a.timestamp)) :
    (insertDesc e l).Pairwise (fun a b => b.timestamp ≤ a.timestamp) := by
  induction l with
  | nil => simp [insertDesc]
  | cons y ys ih =>
    rw [List.pairwise_cons] at h
    obtain ⟨hy, hys⟩ := h
    simp only [insertDesc]
    split_ifs with hc
    · rw [List.pairwise_cons]
      refine ⟨?_, ?_⟩
      · intro b hb
        rcases List.mem_cons.mp hb with rfl | hb'
        · exact hc
        · exact le_trans (hy b hb') hc
      · rw [List.pairwise_cons]
        exact ⟨hy, hys⟩
    · rw [List.pairwise_cons]
      refine ⟨?_, ih hys⟩
      intro b hb
      rcases (mem_insertDesc b e ys).mp hb with rfl | hb'
      · omega
      · exact hy b hb'

theorem sortDesc_pairwise (l : List UsageEntry) :
    (sortDesc l).Pairwise (fun a b => b.timestamp ≤ a.timestamp) := by
  induction l with
  | nil => simp [sortDesc]
  | cons e es ih => exact pairwise_insertDesc e _ ih

theorem filter_ts_insertDesc (e : UsageEntry) (l : List UsageEntry) (t : Int) :
    (insertDesc e l).filter (fun a => decide (a.timestamp = t)) =
      if e.timestamp = t then
        e :: l.filter (fun a => decide (a.timestamp = t))
      else l.filter (fun a => decide (a.timestamp = t)) := by
  induction l with
  | nil =>
    by_cases he : e.timestamp = t <;> simp [insertDesc, he]
  | cons y ys ih =>
    simp only [insertDesc]
    split_ifs with hc hp hq
    · simp [List.filter_cons, hp]
    · simp [List.filter_cons, hp]
    · have hyne : ¬(y.timestamp = t) := by omega
      simp [List.filter_cons, hyne, ih, hq]
    · simp [List.filter_cons, ih, hq]

theorem sortDesc_filter_ts (l : List UsageEntry) (t : Int) :
    (sortDesc l).filter (fun a => decide (a.timestamp = t)) =
      l.filter (fun a => decide (a.timestamp = t)) := by
  induction l with
  | nil => rfl
  | cons e es ih =>
    simp only [sortDesc]
    rw [filter_ts_insertDesc]
    by_cases he : e.timestamp = t <;> simp [List.filter_cons, he, ih]

/-- `_matches_query` succeeds exactly on the conjunction of the five
optional predicates (for queries whose string filters are not the empty
string, which Python truthiness would silently drop). -/
theorem matchesQuery_iff (e : UsageEntry) (q : UsageQuery)
    (hinst : q.instance_id ≠ some "") (hsess : q.session_id ≠ some "") :
    matchesQuery e q = true ↔
      (∀ sd, q.start_date = some sd → sd ≤ e.timestamp) ∧
      (∀ ed, q.end_date = some ed → e.timestamp ≤ ed) ∧
      (∀ iid, q.instance_id = some iid → e.instance_id = iid) ∧
      (∀ sid, q.session_id = some sid → e.session_id = some sid) ∧
      (∀ m, q.model = some m → e.model = m) := by
  obtain ⟨sdo, edo, iido, sido, mo, off, lim⟩ := q
  simp only at hinst hsess
  unfold matchesQuery
  simp only [Bool.and_eq_true]
  have c1 : ((match sdo with
      | none => true
      | some sd => !(decide (e.timestamp < sd))) = true) ↔
      (∀ sd, sdo = some sd → sd ≤ e.timestamp) := by
    cases sdo <;> simp
  have c2 : ((match edo with
      | none => true
      | some ed => !(decide (ed < e.timestamp))) = true) ↔
      (∀ ed, edo = some ed → e.timestamp ≤ ed) := by
    cases edo <;> simp
  have c3 : ((if strTruthy iido then decide (some e.instance_id = iido)
      else true) = true) ↔
      (∀ iid, iido = some iid → e.instance_id = iid) := by
    cases iido with
    | none => simp [strTruthy]
    | some s =>
      have hs : ¬(s = "") := fun h => hinst (by rw [h])
      have ht : strTruthy (some s) = true := by
        unfold strTruthy
        simp [hs]
      rw [ht, if_pos rfl]
      simp only [decide_eq_true_eq]
      constructor
      · intro h iid hiid
        injection hiid with hh
        rw [← hh]
        exact Option.some.inj h
      · intro h
        rw [h s rfl]
  have c4 : ((if strTruthy sido then decide (e.session_id = sido)
      else true) = true) ↔
      (∀ sid, sido = some sid → e.session_id = some sid) := by
    cases sido with
    | none => simp [strTruthy]
    | some s =>
      have hs : ¬(s = "") := fun h => hsess (by rw [h])
      have ht : strTruthy (some s) = true := by
        unfold strTruthy
        simp [hs]
      rw [ht, if_pos rfl]
      simp only [decide_eq_true_eq]
      constructor
      · intro h sid hsid
        injection hsid with hh
        rw [← hh]
        exact h
      · intro h
        exact h s rfl
  have c5 : ((match mo with
      | none => true
      | some m => decide (e.model = m)) = true) ↔
      (∀ m, mo = some m → e.model = m) := by
    cases mo <;> simp
  rw [c1, c2, c3, c4, c5]
  tauto

/-! ## C5 -/

/-- C5: on a clean log, `get_usage_entries` returns exactly the entries
satisfying the conjunction of all provided predicates (timestamp within
the bounds, matching instance/session/model; absent predicates match
everything), ordered by timestamp descending with ties stable in file
order, with offset/limit pagination applied after sorting; an offset
beyond the result count yields `[]`, and `start_date > end_date` yields
`[]`.  (The string filters are assumed not to be `some ""`, which Python
truthiness silently drops.) -/
theorem c5_query_engine (lines : List (Option UsageEntry)) (q : UsageQuery)
    (hclean : lines.all (fun l => l.isSome) = true)
    (hinst : q.instance_id ≠ some "") (hsess : q.session_id ≠ some "")
    (log : List UsageEntry) (hlog : log = lines.filterMap id)
    (full : List UsageEntry)
    (hfull : full = sortDesc (log.filter (fun e => matchesQuery e q))) :
    get_usage_entries lines q = (full.drop q.offset).take q.limit ∧
    (∀ e, e ∈ full ↔ e ∈ log ∧
      ((∀ sd, q.start_date = some sd → sd ≤ e.timestamp) ∧
       (∀ ed, q.end_date = some ed → e.timestamp ≤ ed) ∧
       (∀ iid, q.instance_id = some iid → e.instance_id = iid) ∧
       (∀ sid, q.session_id = some sid → e.session_id = some sid) ∧
       (∀ m, q.model = some m → e.model = m))) ∧
    full.Pairwise (fun a b => b.timestamp ≤ a.timestamp) ∧
    (∀ t, full.filter (fun e => decide (e.timestamp = t)) =
      (log.filter (fun e => matchesQuery e q)).filter
        (fun e => decide (e.timestamp = t))) ∧
    (full.length ≤ q.offset → get_usage_entries lines q = []) ∧
    (∀ sd ed, q.start_date = some sd → q.end_date = some ed → ed < sd →
      get_usage_entries lines q = []) := by
  subst hlog
  subst hfull
  refine ⟨?_, ?_, ?_, ?_, ?_, ?_⟩
  · unfold get_usage_entries
    rw [if_pos hclean]
  · intro e
    rw [mem_sortDesc, List.mem_filter, matchesQuery_iff e q hinst hsess]
  · exact sortDesc_pairwise _
  · intro t
    exact sortDesc_filter_ts _ t
  · intro hoff
    unfold get_usage_entries
    rw [if_pos hclean, List.drop_eq_nil_of_le hoff, List.take_nil]
  · intro sd ed hsd hed hlt
    unfold get_usage_entries
    rw [if_pos hclean]
    have hfe : (lines.filterMap id).filter (fun e => matchesQuery e q) = [] := by
      rw [List.filter_eq_nil_iff]
      intro e he hm
      have h := (matchesQuery_iff e q hinst hsess).mp hm
      have h1 := h.1 sd hsd
      have h2 := h.2.1 ed hed
      omega
    rw [hfe]
    simp [sortDesc]

/-- C5 witness: the theorem applied to a two-entry log under the default
query; the result is the stable-sorted, paginated filtered list. -/
theorem c5_query_engine_witness :
    get_usage_entries [some entryA, some entryB] defaultQuery =
      ((sortDesc ((([some entryA, some entryB] :
          List (Option UsageEntry)).filterMap id).filter
        (fun e => matchesQuery e defaultQuery))).drop
          defaultQuery.offset).take defaultQuery.limit :=
  (c5_query_engine [some entryA, some entryB] defaultQuery rfl (by decide)
    (by decide) _ rfl _ rfl).1

/-! ## C1 -/

theorem lookup_updateModelUsage_self (acc : List (String × ModelStats))
    (k : String) (e : UsageEntry) :
    List.lookup k (updateModelUsage acc k e) =
      some (addEntryStats ((List.lookup k acc).getD emptyModelStats) e) := by
  induction acc with
  | nil => simp [updateModelUsage, List.lookup]
  | cons p rest ih =>
    obtain ⟨k', s⟩ := p
    simp only [updateModelUsage]
    split_ifs with hk
    · subst hk
      simp [List.lookup]
    · have hb : (k == k') = false :=
        beq_eq_false_iff_ne.mpr (fun h => hk h.symm)
      simp [List.lookup, hb, ih]

theorem lookup_updateModelUsage_ne (acc : List (String × ModelStats))
    (k k' : String) (e : UsageEntry) (hne : k' ≠ k) :
    List.lookup k' (updateModelUsage acc k e) = List.lookup k' acc := by
  induction acc with
  | nil =>
    have hb : (k' == k) = false := beq_eq_false_iff_ne.mpr hne
    simp [updateModelUsage, List.lookup, hb]
  | cons p rest ih =>
    obtain ⟨k0, s⟩ := p
    simp only [updateModelUsage]
    split_ifs with hk
    · subst hk
      have hb : (k' == k0) = false := beq_eq_false_iff_ne.mpr hne
      simp [List.lookup, hb]
    · cases hbeq : (k' == k0) <;> simp [List.lookup, hbeq, ih]

theorem lookup_buildAux (l : List UsageEntry) :
    ∀ (acc : List (String × ModelStats)) (k : String),
      List.lookup k
          (l.foldl (fun a e => updateModelUsage a e.model.value e) acc) =
        match List.lookup k acc with
        | some s =>
          some ((l.filter (fun e => e.model.value == k)).foldl addEntryStats s)
        | none =>
          if (l.filter (fun e => e.model.value == k)).isEmpty then none
          else some ((l.filter
            (fun e => e.model.value == k)).foldl addEntryStats emptyModelStats) := by
  induction l with
  | nil =>
    intro acc k
    cases h : List.lookup k acc <;> simp [h]
  | cons e rest ih =>
    intro acc k
    simp only [List.foldl_cons]
    rw [ih]
    by_cases hk : e.model.value = k
    · subst hk
      rw [lookup_updateModelUsage_self]
      have hfc : (e :: rest).filter (fun x => x.model.value == e.model.value) =
          e :: rest.filter (fun x => x.model.value == e.model.value) := by
        simp [List.filter_cons]
      cases hacc : List.lookup e.model.value acc with
      | some s => simp [hacc, hfc, List.foldl_cons]
      | none => simp [hacc, hfc, List.foldl_cons]
    · rw [lookup_updateModelUsage_ne acc e.model.value k e (fun h => hk h.symm)]
      have hb : (e.model.value == k) = false := beq_eq_false_iff_ne.mpr hk
      have hfc : (e :: rest).filter (fun x => x.model.value == k) =
          rest.filter (fun x => x.model.value == k) := by
        simp [List.filter_cons, hb]
      rw [hfc]

theorem foldl_addEntryStats (l : List UsageEntry) :
    ∀ s : ModelStats, l.foldl addEntryStats s =
      ⟨s.tokens + (l.map (fun e => e.input_tokens + e.output_tokens)).sum,
       s.cost + (l.map (fun e => e.total_cost)).sum,
       s.requests + l.length,
       s.input_tokens + (l.map (fun e => e.input_tokens)).sum,
       s.output_tokens + (l.map (fun e => e.output_tokens)).sum⟩ := by
  induction l with
  | nil =>
    intro s
    simp
  | cons e rest ih =>
    intro s
    simp only [List.foldl_cons, ih, addEntryStats, List.map_cons,
      List.sum_cons, List.length_cons]
    congr 1 <;> first | omega | ring

theorem lookup_buildModelUsage (entries : List UsageEntry) (k : String)
    (hocc : ∃ e ∈ entries, e.model.value = k) :
    List.lookup k (buildModelUsage entries) =
      some ((entries.filter
        (fun e => e.model.value == k)).foldl addEntryStats emptyModelStats) := by
  unfold buildModelUsage
  rw [lookup_buildAux]
  obtain ⟨e, he, hk⟩ := hocc
  have hmem : e ∈ entries.filter (fun x => x.model.value == k) :=
    List.mem_filter.mpr ⟨he, by simp [hk]⟩
  have hne : ¬(entries.filter (fun x => x.model.value == k)).isEmpty = true := by
    cases hflt : entries.filter (fun x => x.model.value == k) with
    | nil => rw [hflt] at hmem; exact absurd hmem (List.not_mem_nil e)
    | cons a as => simp
  simp only [List.lookup]
  rw [if_neg hne]

/-- C1: for every model identifier occurring in the aggregated entry
set, the per-model breakdown of `get_usage_aggregation` maps it to the
record accumulating that model's subtotals: `tokens` = sum of that
model's input+output tokens, `cost` = sum of its `total_cost`,
`requests` = its entry count, plus its input/output token sums. -/
theorem c1_model_breakdown (now : Int) (lines : List (Option UsageEntry))
    (q : UsageQuery) (k : String)
    (hocc : ∃ e ∈ get_usage_entries lines (aggQuery q), e.model.value = k) :
    List.lookup k (get_usage_aggregation now lines q).claude_model_usage =
      some
        ⟨(((get_usage_entries lines (aggQuery q)).filter
            (fun e => e.model.value == k)).map
            (fun e => e.input_tokens + e.output_tokens)).sum,
         (((get_usage_entries lines (aggQuery q)).filter
            (fun e => e.model.value == k)).map (fun e => e.total_cost)).sum,
         ((get_usage_entries lines (aggQuery q)).filter
            (fun e => e.model.value == k)).length,
         (((get_usage_entries lines (aggQuery q)).filter
            (fun e => e.model.value == k)).map (fun e => e.input_tokens)).sum,
         (((get_usage_entries lines (aggQuery q)).filter
            (fun e => e.model.value == k)).map (fun e => e.output_tokens)).sum⟩ := by
  have hne : ¬(get_usage_entries lines (aggQuery q) = []) := by
    obtain ⟨e, he, -⟩ := hocc
    intro h
    rw [h] at he
    exact absurd he (List.not_mem_nil e)
  simp only [get_usage_aggregation]
  rw [if_neg hne]
  rw [lookup_buildModelUsage _ _ hocc, foldl_addEntryStats]
  simp [emptyModelStats]

/-- C1 witness: the theorem applied to a concrete two-entry log, looking
up the haiku model's accumulator record. -/
theorem c1_model_breakdown_witness :
    (∃ e ∈ get_usage_entries [some entryA, some entryB] (aggQuery defaultQuery),
        e.model.value = "claude-3-haiku") ∧
    List.lookup "claude-3-haiku"
        (get_usage_aggregation 0 [some entryA, some entryB]
          defaultQuery).claude_model_usage =
      some
        ⟨(((get_usage_entries [some entryA, some entryB]
            (aggQuery defaultQuery)).filter
            (fun e => e.model.value == "claude-3-haiku")).map
            (fun e => e.input_tokens + e.output_tokens)).sum,
         (((get_usage_entries [some entryA, some entryB]
            (aggQuery defaultQuery)).filter
            (fun e => e.model.value == "claude-3-haiku")).map
            (fun e => e.total_cost)).sum,
         ((get_usage_entries [some entryA, some entryB]
            (aggQuery defaultQuery)).filter
            (fun e => e.model.value == "claude-3-haiku")).length,
         (((get_usage_entries [some entryA, some entryB]
            (aggQuery defaultQuery)).filter
            (fun e => e.model.value == "claude-3-haiku")).map
            (fun e => e.input_tokens)).sum,
         (((get_usage_entries [some entryA, some entryB]
            (aggQuery defaultQuery)).filter
            (fun e => e.model.value == "claude-3-haiku")).map
            (fun e => e.output_tokens)).sum⟩ :=
  ⟨by decide, c1_model_breakdown 0 [some entryA, some entryB] defaultQuery
    "claude-3-haiku" (by decide)⟩

/-! ## C10 -/

theorem length_get_usage_entries (lines : List (Option UsageEntry))
    (q : UsageQuery) (hclean : lines.all (fun l => l.isSome) = true) :
    (get_usage_entries lines q).length =
      min q.limit
        (((lines.filterMap id).filter
          (fun e => matchesQuery e q)).length - q.offset) := by
  unfold get_usage_entries
  rw [if_pos hclean]
  rw [List.length_take, List.length_drop, length_sortDesc]

theorem filterMap_some_replicate (n : ℕ) (e : UsageEntry) :
    (List.replicate n (some e)).filterMap id = List.replicate n e := by
  induction n with
  | zero => rfl
  | succ m ih => simp [List.replicate_succ, List.filterMap_cons, ih]

theorem filter_replicate_pos (n : ℕ) (e : UsageEntry)
    (p : UsageEntry → Bool) (hp : p e = true) :
    (List.replicate n e).filter p = List.replicate n e := by
  induction n with
  | zero => rfl
  | succ m ih => simp [List.replicate_succ, List.filter_cons, hp, ih]

theorem all_isSome_replicate (n : ℕ) (e : UsageEntry) :
    (List.replicate n (some e)).all (fun l => l.isSome) = true := by
  rw [List.all_eq_true]
  intro x hx
  rw [List.mem_replicate] at hx
  rw [hx.2]
  rfl

/-- C10 amended: when the query's `limit` is below the aggregation's
internal cap of 10000 and more entries match than the limit, the JSON
export's entry count (`total_entries`) is strictly smaller than the
exported aggregation's `total_requests` (the original claim without the
`limit < 10000` restriction fails at `limit = 10000`, see the
counterexample). -/
theorem c10_export_amended (now : Int) (lines : List (Option UsageEntry))
    (q : UsageQuery) (hclean : lines.all (fun l => l.isSome) = true)
    (hlim : q.limit < 10000)
    (hmatch : q.limit <
      ((lines.filterMap id).filter (fun e => matchesQuery e q)).length) :
    (export_usage_data now lines q).total_entries <
      (export_usage_data now lines q).aggregation.total_requests := by
  have hpred : (fun e => matchesQuery e (aggQuery q)) =
      (fun e => matchesQuery e q) := rfl
  have hlen1 : (get_usage_entries lines q).length =
      min q.limit
        (((lines.filterMap id).filter
          (fun e => matchesQuery e q)).length - q.offset) :=
    length_get_usage_entries lines q hclean
  have hlen2 : (get_usage_entries lines (aggQuery q)).length =
      min 10000
        ((lines.filterMap id).filter (fun e => matchesQuery e q)).length := by
    rw [length_get_usage_entries lines (aggQuery q) hclean, hpred]
    simp [aggQuery]
  have hne : get_usage_entries lines (aggQuery q) ≠ [] := by
    intro h
    rw [h] at hlen2
    simp at hlen2
    omega
  have hreq : (get_usage_aggregation now lines q).total_requests =
      (get_usage_entries lines (aggQuery q)).length := by
    simp only [get_usage_aggregation]
    rw [if_neg hne]
  simp only [export_usage_data]
  rw [hlen1, hreq, hlen2]
  omega

/-- C10 witness: the amended theorem at limit 1 with two matching
entries: the export holds 1 raw entry but the aggregation counts 2. -/
theorem c10_export_amended_witness :
    (⟨none, none, none, none, none, 0, 1⟩ : UsageQuery).limit <
      ((([some entryA, some entryB] :
        List (Option UsageEntry)).filterMap id).filter
        (fun e => matchesQuery e ⟨none, none, none, none, none, 0, 1⟩)).length ∧
    (export_usage_data 0 [some entryA, some entryB]
        ⟨none, none, none, none, none, 0, 1⟩).total_entries <
      (export_usage_data 0 [some entryA, some entryB]
        ⟨none, none, none, none, none, 0, 1⟩).aggregation.total_requests :=
  ⟨by decide, c10_export_amended 0 [some entryA, some entryB]
    ⟨none, none, none, none, none, 0, 1⟩ rfl (by decide) (by decide)⟩

/-- C10 counterexample: with `limit = 10000` (the aggregation's internal
cap) and 10001 matching entries, the export's entry count equals the
aggregation's `total_requests` (both 10000), so the claimed strict
inequality fails. -/
theorem c10_export_counterexample :
    q10k.limit <
      (((List.replicate 10001 (some entryX)).filterMap id).filter
        (fun e => matchesQuery e q10k)).length ∧
    ¬((export_usage_data 0 (List.replicate 10001 (some entryX))
        q10k).total_entries <
      (export_usage_data 0 (List.replicate 10001 (some entryX))
        q10k).aggregation.total_requests) := by
  have hall := all_isSome_replicate 10001 entryX
  have hlen : (((List.replicate 10001 (some entryX)).filterMap id).filter
      (fun e => matchesQuery e q10k)).length = 10001 := by
    rw [filterMap_some_replicate,
      filter_replicate_pos 10001 entryX _ rfl, List.length_replicate]
  constructor
  · rw [hlen]
    decide
  · have hpred : (fun e => matchesQuery e (aggQuery q10k)) =
        (fun e => matchesQuery e q10k) := rfl
    have h1 : (get_usage_entries (List.replicate 10001 (some entryX))
        q10k).length = 10000 := by
      rw [length_get_usage_entries _ _ hall, hlen]
      decide
    have h2 : (get_usage_entries (List.replicate 10001 (some entryX))
        (aggQuery q10k)).length = 10000 := by
      rw [length_get_usage_entries _ _ hall, hpred, hlen]
      decide
    have hne : get_usage_entries (List.replicate 10001 (some entryX))
        (aggQuery q10k) ≠ [] := by
      intro h
      rw [h] at h2
      simp at h2
    have hreq : (get_usage_aggregation 0 (List.replicate 10001 (some entryX))
        q10k).total_requests =
        (get_usage_entries (List.replicate 10001 (some entryX))
          (aggQuery q10k)).length := by
      simp only [get_usage_aggregation]
      rw [if_neg hne]
    simp only [export_usage_data]
    rw [h1, hreq, h2]
    exact Nat.lt_irrefl 10000
